import Mathlib

/-!
Verification development for the bulk-download utility library
(`utils/utils.py`).  The Python functions `download_files`,
`set_up_soup` (dynamic branch) and `find_element` are shallowly embedded
as pure Lean functions over an explicit environment (HTTP responses,
filesystem, browser driver) and an explicit event trace.  External
library primitives used by the code (`os.path.basename`, `os.path.join`,
`urllib.parse.urljoin`, the regex test, Selenium waits) are modelled as
executable Lean functions on character lists.
-/

/-! ### Character / string primitives -/

/-- Python `\w` word character test, restricted to ASCII as exercised by
the hrefs this library handles: letters, digits, underscore. -/
def isWordChar (c : Char) : Bool :=
  c.isAlpha || c.isDigit || c == ('_')

/-- Bool test: string `s` ends with suffix `suf` (exact, case-sensitive),
as Python `str.endswith` with a single suffix. -/
def strEndsWith (s suf : String) : Bool :=
  suf.data.reverse.isPrefixOf s.data.reverse

/-- Python `str.endswith(tuple)`: true when the string ends with any of
the listed suffixes. -/
def strEndsWithAny (s : String) (suffixes : List String) : Bool :=
  suffixes.any (fun suf => strEndsWith s suf)

/-- Bool test: string `s` starts with prefix `pre`. -/
def strStartsWith (s pre : String) : Bool :=
  pre.data.isPrefixOf s.data

/-- The characters after the last '/' of a character list (the whole
list when it has no '/'). -/
def basenameChars : List Char → List Char
  | [] => []
  | c :: cs => if c = ('/') ∨ ('/') ∈ cs then basenameChars cs else c :: cs

/-- Model of `os.path.basename` (POSIX): the substring after the last
'/' of the raw string; no URL parsing, so '?' and '#' are kept. -/
def basename (s : String) : String :=
  String.mk (basenameChars s.data)

/-- Model of `os.path.join dir name` (POSIX) for the two-argument form
used by `download_files` (line 193). -/
def pathJoin (a b : String) : String :=
  if strStartsWith b ("/") then b
  else if a = ("") || strEndsWith a ("/") then a ++ b
  else a ++ ("/") ++ b

/-- Split a character list at the first occurrence of `pat`, returning
the part before and the part after the occurrence. -/
def splitFirst (pat : List Char) : List Char → Option (List Char × List Char)
  | [] => if pat.isEmpty then some ([], []) else none
  | c :: cs =>
    if pat.isPrefixOf (c :: cs) then some ([], (c :: cs).drop pat.length)
    else
      match splitFirst pat cs with
      | some (pre, post) => some (c :: pre, post)
      | none => none

/-! ### URL resolution (model of `urllib.parse.urljoin`) -/

/-- Scheme, authority and path of an absolute URL. -/
structure UrlParts where
  scheme : String
  authority : String
  path : String

/-- Parse a `scheme://authority/path` URL into its parts; the path keeps
its leading '/' (empty when the URL has no path). -/
def parseUrl (u : String) : Option UrlParts :=
  match splitFirst (("://").data) u.data with
  | none => none
  | some (schemeCs, rest) =>
    some { scheme := String.mk schemeCs
           authority := String.mk (rest.takeWhile (fun c => c != ('/')))
           path := String.mk (rest.dropWhile (fun c => c != ('/'))) }

/-- The directory part of a path: everything up to and including the
last '/', or "/" when the path is empty (RFC 3986 path merge). -/
def dirOfPath (p : String) : String :=
  if ('/') ∈ p.data then
    String.mk ((p.data.reverse.dropWhile (fun c => c != ('/'))).reverse)
  else ("/")

/-- Model of the external `urllib.parse.urljoin` (line 191 of the
source) for the URL forms exercised by this library: absolute URLs,
network-path references (`//host/...`), absolute-path references
(`/...`) and relative-path references, over `scheme://authority/path`
bases.  Dot-segment normalization and relative query/fragment references
are not exercised and are elided. -/
def urljoin (base href : String) : String :=
  if href = ("") then base
  else if (splitFirst (("://").data) href.data).isSome then href
  else
    match parseUrl base with
    | none => href
    | some p =>
      if strStartsWith href ("//") then p.scheme ++ (":") ++ href
      else if strStartsWith href ("/") then
        p.scheme ++ ("://") ++ p.authority ++ href
      else p.scheme ++ ("://") ++ p.authority ++ dirOfPath p.path ++ href

/-! ### Link extraction (`download_files`, lines 176-180) -/

/-- An HTML anchor element as seen by the extraction code: its `href`
attribute and its `type` attribute (each possibly absent). -/
structure Anchor where
  href : Option String
  typeAttr : Option String
deriving DecidableEq

/-- Python truthiness filter `if a.get('href')`: the href when it is
present and non-empty, otherwise none. -/
def hrefIfTruthy (a : Anchor) : Option String :=
  match a.href with
  | none => none
  | some h => if h = ("") then none else some h

/-- The per-anchor test of the first comprehension (lines 177-178): the
href when it is truthy and either ends with one of the suffixes or
belongs to an anchor whose `type` attribute equals "zip". -/
def anchorFileHref (fts : List String) (a : Anchor) : Option String :=
  match a.href with
  | none => none
  | some h =>
    if h = ("") then none
    else if strEndsWithAny h fts || a.typeAttr == some ("zip") then some h
    else none

/-- The link extraction of `download_files` (lines 176-180): with a
truthy `file_types` keep hrefs that are non-empty and either end with
one of the suffixes or belong to an anchor whose `type` attribute equals
"zip"; with `None` or an empty tuple keep every non-empty href.
Document order, no deduplication. -/
def extractHrefs (file_types : Option (List String)) (anchors : List Anchor) : List String :=
  match file_types with
  | none => anchors.filterMap hrefIfTruthy
  | some fts =>
    if fts.isEmpty then anchors.filterMap hrefIfTruthy
    else anchors.filterMap (anchorFileHref fts)

/-- Follows the spec claim's words for link extraction with a non-empty
suffix set: keep exactly the anchors whose href ends in one of the
suffixes or whose type attribute equals "zip" (no non-emptiness
requirement on the href), in document order. -/
def extractHrefsClaim (fts : List String) (anchors : List Anchor) : List String :=
  (anchors.filter (fun a =>
    strEndsWithAny (a.href.getD ("")) fts || a.typeAttr == some ("zip"))).filterMap
    (fun a => a.href)

/-- The amended kept-anchor predicate: a non-empty href that ends in one
of the suffixes, or a non-empty href on an anchor whose type attribute
equals "zip". -/
def keepAnchorAmended (fts : List String) (a : Anchor) : Bool :=
  (a.href.getD ("") != ("")) &&
    (strEndsWithAny (a.href.getD ("")) fts || a.typeAttr == some ("zip"))

/-! ### Subpage classification (`download_files`, lines 218-222) -/

/-- One disjunct of the regex test: the reversed string starts with `k`
word characters followed by a '.'. -/
def dottedExtAt (rev : List Char) (k : Nat) : Bool :=
  (rev.take k).all isWordChar && rev.getD k (' ') == ('.')

/-- Model of `re.search(r'\.\w{3,5}$', s)` (line 219): the string ends
in a dot followed by 3 to 5 word characters. -/
def endsWithDottedExt (s : String) : Bool :=
  dottedExtAt s.data.reverse 3 || dottedExtAt s.data.reverse 4 ||
    dottedExtAt s.data.reverse 5

/-! ### The download loop (`download_files`, lines 188-216) -/

/-- The filesystem as an association list from path to file content;
the most recent write for a path is first. -/
abbrev FS := List (String × String)

/-- Observable events of one `download_files` run. -/
inductive Event where
  | requested (url : String)
  | slept
  | wrote (path content : String)
  | logExists (path : String)
  | logError (msg : String)
deriving DecidableEq

/-- A Python exception raised inside the per-href try block: a
`requests.RequestException` (transport error or non-2xx status via
`raise_for_status`) or any other exception (e.g. an `OSError` from the
file write). -/
inductive PyExc where
  | requestException (msg : String)
  | oserror (msg : String)
deriving DecidableEq

/-- The ambient world of a `download_files` run: the HTTP response for
each URL (error = transport failure or non-2xx status) and whether the
filesystem write at a path succeeds. -/
structure Env where
  request : String → Except String String
  writeOk : String → Bool

/-- The body of the per-href try block (lines 189-212): resolve the URL,
compute the destination name, skip when the file exists, otherwise
sleep, issue the GET and write the file.  Returns the emitted events and
either the updated filesystem or the raised exception. -/
def tryBody (env : Env) (fp bu : String) (fs : FS) (href : String) :
    List Event × Except PyExc FS :=
  let file_url := urljoin bu href
  let file_name := pathJoin fp (basename href)
  if (fs.lookup file_name).isSome then
    ([Event.logExists file_name], Except.ok fs)
  else
    match env.request file_url with
    | Except.error e =>
      ([Event.slept, Event.requested file_url],
       Except.error (PyExc.requestException e))
    | Except.ok content =>
      if env.writeOk file_name then
        ([Event.slept, Event.requested file_url, Event.wrote file_name content],
         Except.ok ((file_name, content) :: fs))
      else
        ([Event.slept, Event.requested file_url],
         Except.error (PyExc.oserror file_name))

/-- The two except clauses (lines 213-216): a `RequestException` is
logged as a download error, anything else as an unexpected error; both
continue with the next href. -/
def handleExc (href : String) (e : PyExc) : Event :=
  match e with
  | PyExc.requestException m =>
    Event.logError (("Error downloading file ") ++ href ++ (": ") ++ m)
  | PyExc.oserror m => Event.logError (("Unexpected error: ") ++ m)

/-- One iteration of the download loop: run the try body and catch every
exception it raises, leaving the filesystem as it was at the failure. -/
def processHref (env : Env) (fp bu : String) (fs : FS) (href : String) :
    FS × List Event :=
  match tryBody env fp bu fs href with
  | (evs, Except.ok fs1) => (fs1, evs)
  | (evs, Except.error e) => (fs, evs ++ [handleExc href e])

/-- The download loop over the extracted hrefs (line 188). -/
def downloadLoop (env : Env) (fp bu : String) : List String → FS → FS × List Event
  | [], fs => (fs, [])
  | href :: rest, fs =>
    let r1 := processHref env fp bu fs href
    let r2 := downloadLoop env fp bu rest r1.1
    (r2.1, r1.2 ++ r2.2)

/-- The per-href event groups of the download loop, in order. -/
def loopChunks (env : Env) (fp bu : String) : List String → FS → List (List Event)
  | [], _ => []
  | href :: rest, fs =>
    (processHref env fp bu fs href).2 ::
      loopChunks env fp bu rest (processHref env fp bu fs href).1

/-- A per-href event group that ended in a logged resolution: a skip, a
successful write, or a logged error. -/
def settledGroup (c : List Event) : Bool :=
  match c.reverse.head? with
  | some (Event.logExists _) => true
  | some (Event.wrote _ _) => true
  | some (Event.logError _) => true
  | _ => false

/-! ### `download_files` (lines 153-229) -/

/-- The outcome of a `download_files` call. -/
structure DLResult where
  fs : FS
  events : List Event
  ret : Option (List String)

/-- Model of `download_files`: extract the hrefs, rebase the directory
to `file_path/data` unless `is_subpage`, run the download loop, and when
`get_subpages` collect the non-file hrefs, resolve them, write them one
per line to `subpages.txt` in the destination directory and return them
(otherwise return `None`).  Directory creation, log formatting and the
user-agent header choice have no observable effect in this model and are
elided. -/
def download_files (env : Env) (anchors : List Anchor) (file_path base_url : String)
    (file_types : Option (List String)) (get_subpages is_subpage : Bool)
    (fs0 : FS) : DLResult :=
  let hrefs := extractHrefs file_types anchors
  let fp := if is_subpage then file_path else file_path ++ ("/data")
  let r := downloadLoop env fp base_url hrefs fs0
  if get_subpages then
    let subHrefs := (anchors.filterMap hrefIfTruthy).filter
      (fun h => !(endsWithDottedExt h))
    let resolved := subHrefs.map (fun h => urljoin base_url h)
    let content := String.join (resolved.map (fun u => u ++ ("\n")))
    { fs := (fp ++ ("/subpages.txt"), content) :: r.1, events := r.2,
      ret := some resolved }
  else
    { fs := r.1, events := r.2, ret := none }

/-! ### Dynamic page fetch (`set_up_soup` lines 96-120, `find_element`
lines 123-151) -/

/-- The ambient browser world of a dynamic fetch: whether
`webdriver.Chrome` succeeds, whether `driver.get(url)` raises, the time
in seconds at which an element matching a CSS selector first appears
(none = never), and the rendered page source. -/
structure DriverEnv where
  createOk : Bool
  navRaises : Bool
  appearTime : String → Option Nat
  pageSource : String

/-- Observable events of a dynamic `set_up_soup` call. -/
inductive DynEvent where
  | driverCreated
  | navigated
  | loggedFound (fileType : String)
  | loggedNoElement
  | loggedNoFileTypes
  | loggedError
  | quitCalled
deriving DecidableEq

/-- The CSS selector built for one file type (line 141). -/
def cssSelector (file_type : String) : String :=
  ("a[href$=\"") ++ file_type ++ ("\"]")

/-- The (file type, selector) pairs iterated by `find_element` (lines
137-142): a single wildcard pair for `('all',)`, otherwise one
end-of-href selector per file type. -/
def selectorPairs (file_types : List String) : List (String × String) :=
  if file_types = [("all")] then [(("all"), ("a[href]"))]
  else file_types.zip (file_types.map cssSelector)

/-- Model of `WebDriverWait(driver, waitSecs).until(presence_of_element_located)`:
the selector's element when it appears within `waitSecs` seconds,
otherwise none (the `TimeoutException`, caught by the caller). -/
def webDriverWaitUntil (env : DriverEnv) (waitSecs : Nat) (selector : String) :
    Option String :=
  match env.appearTime selector with
  | some t => if t ≤ waitSecs then some selector else none
  | none => none

/-- Try each (file type, selector) pair in order with a per-selector
wait bound, falling through to the next pair when a wait times out. -/
def findFirst (env : DriverEnv) (bound : Nat) :
    List (String × String) → Option (String × String)
  | [] => none
  | (ft, sel) :: rest =>
    match webDriverWaitUntil env bound sel with
    | some el => some (el, ft)
    | none => findFirst env bound rest

/-- Model of `find_element` (lines 123-151): the per-selector wait bound
is the literal 10 seconds of line 144. -/
def find_element (env : DriverEnv) (file_types : List String) :
    Option (String × String) :=
  findFirst env 10 (selectorPairs file_types)

/-- Follows the spec claim's words for the dynamic wait: identical
search order and fall-through, but with the polling of each suffix
bounded by the caller-supplied timeout value. -/
def findElementClaim (env : DriverEnv) (timeout : Nat) (file_types : List String) :
    Option (String × String) :=
  findFirst env timeout (selectorPairs file_types)

/-- Model of the `dynamic=True` branch of `set_up_soup` (lines 96-120):
create the driver, navigate, optionally wait for a matching element,
parse the page source, quit the driver and return the soup.  Any
exception in the block is logged and re-raised by the `except` clause;
`driver.quit()` is only reached on the success path.  The `timeout`
parameter is accepted but never read by this branch, as in the source;
`headless` only affects browser options and is elided. -/
def set_up_soup_dynamic (env : DriverEnv) (url : String)
    (file_types_to_wait : List String) (timeout : Nat) :
    List DynEvent × Except String String :=
  if env.createOk = false then
    ([DynEvent.loggedError], Except.error ("driver init failed"))
  else if env.navRaises then
    ([DynEvent.driverCreated, DynEvent.loggedError],
     Except.error ("navigation failed"))
  else
    let evs :=
      if file_types_to_wait.isEmpty then
        [DynEvent.driverCreated, DynEvent.navigated, DynEvent.loggedNoFileTypes]
      else
        match find_element env file_types_to_wait with
        | some (_, ft) =>
          [DynEvent.driverCreated, DynEvent.navigated, DynEvent.loggedFound ft]
        | none =>
          [DynEvent.driverCreated, DynEvent.navigated, DynEvent.loggedNoElement]
    (evs ++ [DynEvent.quitCalled], Except.ok env.pageSource)

/-! ### Claim-side auxiliary definitions -/

/-- Everything of the character list strictly before the first
occurrence of `marker`. -/
def stripAfter (marker : Char) (cs : List Char) : List Char :=
  cs.takeWhile (fun c => c != marker)

/-- Follows the spec claim's words for the destination file name: the
final path segment of the href with the query string and the fragment
stripped. -/
def claimDestName (href : String) : String :=
  basename (String.mk (stripAfter ('?') (stripAfter ('#') href.data)))

/-! ### Concrete environments used by counterexamples and witnesses -/

/-- An HTTP/filesystem world where every request succeeds with body
"content" and every write succeeds. -/
def envAllOk : Env :=
  { request := fun _ => Except.ok ("content"), writeOk := fun _ => true }

/-- A browser world where the driver is created but navigation raises
(as chromedriver does for an unreachable page). -/
def envNavFail : DriverEnv :=
  { createOk := true, navRaises := true, appearTime := fun _ => none,
    pageSource := ("") }

/-- A browser world where an anchor ending in ".zip" first appears 20
seconds after navigation. -/
def envLate : DriverEnv :=
  { createOk := true, navRaises := false,
    appearTime := fun s => if s = cssSelector (".zip") then some 20 else none,
    pageSource := ("<a href=\"x.zip\"></a>") }

/-- A browser world where the driver is created, navigation succeeds and
no element ever appears. -/
def envNoNav : DriverEnv :=
  { createOk := true, navRaises := false, appearTime := fun _ => none,
    pageSource := ("<p>partial</p>") }

/-- A browser world where no ".pdf" anchor ever appears and a ".zip"
anchor appears 3 seconds after navigation. -/
def envFall : DriverEnv :=
  { createOk := true, navRaises := false,
    appearTime := fun se => if se = cssSelector (".zip") then some 3 else none,
    pageSource := ("<a href=\"y.zip\"></a>") }

/-! ### Helper lemmas -/

theorem takeWhile_append_of_all {α : Type} (p : α → Bool) (l m : List α)
    (hall : ∀ x ∈ l, p x = true) :
    (l ++ m).takeWhile p = l ++ m.takeWhile p := by
  induction l with
  | nil => simp
  | cons a t ih =>
    have ha : p a = true := hall a (List.mem_cons_self a t)
    simp only [List.cons_append, List.takeWhile_cons_of_pos ha]
    rw [ih (fun x hx => hall x (List.mem_cons_of_mem a hx))]

theorem takeWhile_append_of_stop {α : Type} (p : α → Bool) (l m : List α)
    (hx : ∃ x ∈ l, p x = false) :
    (l ++ m).takeWhile p = l.takeWhile p := by
  induction l with
  | nil =>
    rcases hx with ⟨x, hxm, _⟩
    exact absurd hxm (List.not_mem_nil x)
  | cons a t ih =>
    cases hpa : p a with
    | false =>
      simp only [List.cons_append]
      rw [List.takeWhile_cons_of_neg (by simp [hpa]),
        List.takeWhile_cons_of_neg (by simp [hpa])]
    | true =>
      simp only [List.cons_append, List.takeWhile_cons_of_pos hpa]
      rcases hx with ⟨x, hxm, hxf⟩
      rcases List.mem_cons.mp hxm with hxa | hxt
      · subst hxa; rw [hpa] at hxf; exact absurd hxf (by simp)
      · rw [ih ⟨x, hxt, hxf⟩]

theorem basenameChars_no_slash (cs : List Char) (h : ('/') ∉ cs) :
    basenameChars cs = cs := by
  induction cs with
  | nil => rfl
  | cons c t ih =>
    have hc : ¬ c = ('/') := fun he => h (he ▸ List.mem_cons_self c t)
    have ht : ('/') ∉ t := fun hm => h (List.mem_cons_of_mem c hm)
    rw [basenameChars, if_neg]
    intro hor
    rcases hor with h1 | h2
    · exact hc h1
    · exact ht h2

theorem basenameChars_eq (cs : List Char) :
    basenameChars cs = (cs.reverse.takeWhile (fun c => c != ('/'))).reverse := by
  induction cs with
  | nil => rfl
  | cons c t ih =>
    rw [List.reverse_cons]
    by_cases hmem : ('/') ∈ t
    · rw [basenameChars, if_pos (Or.inr hmem)]
      rw [takeWhile_append_of_stop _ _ _
        ⟨('/'), List.mem_reverse.mpr hmem, by simp⟩]
      exact ih
    · by_cases hc : c = ('/')
      · subst hc
        rw [basenameChars, if_pos (Or.inl rfl)]
        rw [takeWhile_append_of_all _ _ _
          (fun x hx => by
            have : x ≠ ('/') := fun he => hmem (he ▸ List.mem_reverse.mp hx)
            simp [this])]
        rw [List.takeWhile_cons_of_neg (by simp)]
        rw [basenameChars_no_slash t hmem]
        simp
      · rw [basenameChars, if_neg (by
          intro hor
          rcases hor with h1 | h2
          · exact hc h1
          · exact hmem h2)]
        rw [takeWhile_append_of_all _ _ _
          (fun x hx => by
            have : x ≠ ('/') := fun he => hmem (he ▸ List.mem_reverse.mp hx)
            simp [this])]
        rw [List.takeWhile_cons_of_pos (by simp [hc])]
        simp

theorem dottedExtAt_takeWhile (l : List Char) (k : Nat) :
    dottedExtAt (l.takeWhile (fun c => c != ('/'))) k = dottedExtAt l k := by
  induction l generalizing k with
  | nil => rfl
  | cons c t ih =>
    by_cases hc : c = ('/')
    · subst hc
      rw [List.takeWhile_cons_of_neg (by simp)]
      cases k with
      | zero => rfl
      | succ k =>
        show dottedExtAt [] (k + 1) = dottedExtAt (('/') :: t) (k + 1)
        simp [dottedExtAt, isWordChar]
    · rw [List.takeWhile_cons_of_pos (by simp [hc])]
      cases k with
      | zero => rfl
      | succ k =>
        show dottedExtAt (c :: t.takeWhile (fun c => c != ('/'))) (k + 1)
          = dottedExtAt (c :: t) (k + 1)
        simp only [dottedExtAt, List.take_succ_cons, List.all_cons,
          List.getD_cons_succ]
        cases hw : isWordChar c
        · simp
        · simp only [Bool.true_and]
          exact ih k

theorem endsWithDottedExt_basename (s : String) :
    endsWithDottedExt (basename s) = endsWithDottedExt s := by
  show (dottedExtAt (basenameChars s.data).reverse 3 ||
      dottedExtAt (basenameChars s.data).reverse 4 ||
      dottedExtAt (basenameChars s.data).reverse 5)
    = (dottedExtAt s.data.reverse 3 || dottedExtAt s.data.reverse 4 ||
      dottedExtAt s.data.reverse 5)
  rw [basenameChars_eq, List.reverse_reverse]
  rw [dottedExtAt_takeWhile, dottedExtAt_takeWhile, dottedExtAt_takeWhile]

/-! ### Download-loop lemmas -/

theorem loopChunks_length (env : Env) (fp bu : String) (hrefs : List String)
    (fs : FS) : (loopChunks env fp bu hrefs fs).length = hrefs.length := by
  induction hrefs generalizing fs with
  | nil => rfl
  | cons h t ih => simp [loopChunks, ih]

theorem downloadLoop_eq_join (env : Env) (fp bu : String) (hrefs : List String)
    (fs : FS) :
    (downloadLoop env fp bu hrefs fs).2 = (loopChunks env fp bu hrefs fs).flatten := by
  induction hrefs generalizing fs with
  | nil => rfl
  | cons h t ih => simp [downloadLoop, loopChunks, ih]

theorem processHref_settled (env : Env) (fp bu : String) (fs : FS)
    (href : String) : settledGroup (processHref env fp bu fs href).2 = true := by
  unfold processHref tryBody
  by_cases hex : (fs.lookup (pathJoin fp (basename href))).isSome
  · simp [hex, settledGroup]
  · simp only [hex]
    cases hreq : env.request (urljoin bu href) with
    | error e => simp [settledGroup, handleExc]
    | ok content =>
      by_cases hw : env.writeOk (pathJoin fp (basename href))
      · simp [hw, settledGroup]
      · simp [hw, settledGroup, handleExc]

theorem downloadLoop_all_exist (env : Env) (fp bu n : String) :
    ∀ (rest : List String) (fs : FS), (fs.lookup n).isSome = true →
      (∀ h ∈ rest, pathJoin fp (basename h) = n) →
      downloadLoop env fp bu rest fs = (fs, rest.map (fun _ => Event.logExists n)) := by
  intro rest
  induction rest with
  | nil => intro fs _ _; rfl
  | cons h t ih =>
    intro fs hfs hall
    have hh : pathJoin fp (basename h) = n := hall h (List.mem_cons_self h t)
    have hp : processHref env fp bu fs h = (fs, [Event.logExists n]) := by
      unfold processHref tryBody
      rw [hh]
      simp [hfs]
    simp only [downloadLoop, hp]
    rw [ih fs hfs (fun x hx => hall x (List.mem_cons_of_mem h hx))]
    simp

/-! ### Claim theorems -/

/-- C1: an href whose computed destination path (destination directory
joined with the href's basename) already exists on the filesystem when
it is processed triggers no network request, leaves the filesystem (and
so the existing file) unchanged, logs an "already exists" message, and
the loop moves on to the remaining hrefs. -/
theorem C1_existing_dest_skipped (env : Env) (fp bu : String) (fs : FS)
    (href : String) (rest : List String)
    (h : (fs.lookup (pathJoin fp (basename href))).isSome = true) :
    processHref env fp bu fs href
      = (fs, [Event.logExists (pathJoin fp (basename href))]) ∧
    (∀ u, Event.requested u ∉ (processHref env fp bu fs href).2) ∧
    downloadLoop env fp bu (href :: rest) fs
      = ((downloadLoop env fp bu rest fs).1,
         Event.logExists (pathJoin fp (basename href)) ::
           (downloadLoop env fp bu rest fs).2) := by
  have hp : processHref env fp bu fs href
      = (fs, [Event.logExists (pathJoin fp (basename href))]) := by
    unfold processHref tryBody
    simp [h]
  refine ⟨hp, ?_, ?_⟩
  · intro u
    rw [hp]
    simp
  · simp only [downloadLoop, hp]
    simp

theorem C1_existing_dest_skipped_witness :
    (([(("out/file.zip"), ("old"))] : FS).lookup
        (pathJoin ("out") (basename ("a/file.zip")))).isSome = true ∧
    (processHref envAllOk ("out") ("https://example.org/")
        [(("out/file.zip"), ("old"))] ("a/file.zip")
      = ([(("out/file.zip"), ("old"))],
         [Event.logExists (pathJoin ("out") (basename ("a/file.zip")))]) ∧
     (∀ u, Event.requested u ∉ (processHref envAllOk ("out") ("https://example.org/")
        [(("out/file.zip"), ("old"))] ("a/file.zip")).2) ∧
     downloadLoop envAllOk ("out") ("https://example.org/")
        [("a/file.zip")] [(("out/file.zip"), ("old"))]
       = ((downloadLoop envAllOk ("out") ("https://example.org/") []
            [(("out/file.zip"), ("old"))]).1,
          Event.logExists (pathJoin ("out") (basename ("a/file.zip"))) ::
            (downloadLoop envAllOk ("out") ("https://example.org/") []
              [(("out/file.zip"), ("old"))]).2)) :=
  ⟨by decide, C1_existing_dest_skipped envAllOk ("out") ("https://example.org/")
    [(("out/file.zip"), ("old"))] ("a/file.zip") [] (by decide)⟩

/-- C2: the download loop never raises: for every environment and every
href sequence, each href contributes exactly one non-empty event group
whose last event is a logged resolution (an "already exists" skip, a
successful write, or a logged error from the catch-all except clauses),
and the loop's trace is the concatenation of those groups, so the batch
always runs to completion. -/
theorem C2_loop_never_raises (env : Env) (fp bu : String) (fs : FS)
    (hrefs : List String) :
    (loopChunks env fp bu hrefs fs).length = hrefs.length ∧
    (downloadLoop env fp bu hrefs fs).2 = (loopChunks env fp bu hrefs fs).flatten ∧
    (∀ c ∈ loopChunks env fp bu hrefs fs, settledGroup c = true) := by
  refine ⟨loopChunks_length env fp bu hrefs fs,
    downloadLoop_eq_join env fp bu hrefs fs, ?_⟩
  induction hrefs generalizing fs with
  | nil => intro c hc; exact absurd hc (List.not_mem_nil c)
  | cons h t ih =>
    intro c hc
    rcases List.mem_cons.mp hc with hhd | htl
    · rw [hhd]
      exact processHref_settled env fp bu fs h
    · exact ih _ c htl

/-- C10: starting from an empty filesystem, when the first href's
download succeeds, every later href that shares its basename is skipped
as already existing: the run issues exactly one request and one write
(for the first href), each later href only logs "already exists", and in
particular a later href resolving to a different URL is never
requested. -/
theorem C10_basename_shadowing (env : Env) (fp bu : String)
    (h1 : String) (rest : List String) (c : String)
    (hreq : env.request (urljoin bu h1) = Except.ok c)
    (hw : env.writeOk (pathJoin fp (basename h1)) = true)
    (hrest : ∀ h ∈ rest, basename h = basename h1) :
    downloadLoop env fp bu (h1 :: rest) []
      = ([(pathJoin fp (basename h1), c)],
         Event.slept :: Event.requested (urljoin bu h1) ::
           Event.wrote (pathJoin fp (basename h1)) c ::
             rest.map (fun _ => Event.logExists (pathJoin fp (basename h1)))) ∧
    (∀ h ∈ rest, urljoin bu h ≠ urljoin bu h1 →
      Event.requested (urljoin bu h) ∉ (downloadLoop env fp bu (h1 :: rest) []).2) := by
  have hp : processHref env fp bu [] h1
      = ([(pathJoin fp (basename h1), c)],
         [Event.slept, Event.requested (urljoin bu h1),
          Event.wrote (pathJoin fp (basename h1)) c]) := by
    unfold processHref tryBody
    simp [hreq, hw]
  have hrest2 : ∀ h ∈ rest, pathJoin fp (basename h) = pathJoin fp (basename h1) :=
    fun h hm => by rw [hrest h hm]
  have hloop : downloadLoop env fp bu rest [(pathJoin fp (basename h1), c)]
      = ([(pathJoin fp (basename h1), c)],
         rest.map (fun _ => Event.logExists (pathJoin fp (basename h1)))) :=
    downloadLoop_all_exist env fp bu (pathJoin fp (basename h1)) rest
      [(pathJoin fp (basename h1), c)] (by simp) hrest2
  have hmain : downloadLoop env fp bu (h1 :: rest) []
      = ([(pathJoin fp (basename h1), c)],
         Event.slept :: Event.requested (urljoin bu h1) ::
           Event.wrote (pathJoin fp (basename h1)) c ::
             rest.map (fun _ => Event.logExists (pathJoin fp (basename h1)))) := by
    simp only [downloadLoop, hp, hloop]
    rfl
  refine ⟨hmain, ?_⟩
  intro h hm hne
  rw [hmain]
  intro hmem
  simp only [List.mem_cons, List.mem_map] at hmem
  rcases hmem with h1' | h2' | h3' | hor
  · exact Event.noConfusion h1'
  · injection h2' with hu
    exact hne hu
  · exact Event.noConfusion h3'
  · rcases hor with ⟨x, _, hx⟩
    exact Event.noConfusion hx

theorem C10_basename_shadowing_witness :
    envAllOk.request (urljoin ("https://example.org/") ("a/file.zip"))
      = Except.ok ("content") ∧
    envAllOk.writeOk (pathJoin ("out") (basename ("a/file.zip"))) = true ∧
    (∀ h ∈ [("b/file.zip")], basename h = basename ("a/file.zip")) ∧
    (downloadLoop envAllOk ("out") ("https://example.org/")
        (("a/file.zip") :: [("b/file.zip")]) []
      = ([(pathJoin ("out") (basename ("a/file.zip")), ("content"))],
         Event.slept ::
           Event.requested (urljoin ("https://example.org/") ("a/file.zip")) ::
             Event.wrote (pathJoin ("out") (basename ("a/file.zip"))) ("content") ::
               [("b/file.zip")].map (fun _ =>
                 Event.logExists (pathJoin ("out") (basename ("a/file.zip"))))) ∧
     (∀ h ∈ [("b/file.zip")],
       urljoin ("https://example.org/") h ≠ urljoin ("https://example.org/") ("a/file.zip") →
       Event.requested (urljoin ("https://example.org/") h)
         ∉ (downloadLoop envAllOk ("out") ("https://example.org/")
             (("a/file.zip") :: [("b/file.zip")]) []).2)) :=
  ⟨rfl, by decide, by decide,
   C10_basename_shadowing envAllOk ("out") ("https://example.org/")
     ("a/file.zip") [("b/file.zip")] ("content") rfl (by decide) (by decide)⟩

theorem anchorFileHref_of_keep (fts : List String) (a : Anchor)
    (hk : keepAnchorAmended fts a = true) :
    anchorFileHref fts a = some (a.href.getD ("")) := by
  unfold keepAnchorAmended at hk
  cases ha : a.href with
  | none => rw [ha] at hk; simp at hk
  | some h =>
    rw [ha] at hk
    simp only [Option.getD_some] at hk
    rw [Bool.and_eq_true] at hk
    have hemp : ¬ h = ("") := by
      intro he
      rw [he] at hk
      simp at hk
    simp only [anchorFileHref, ha, Option.getD_some]
    rw [if_neg hemp, if_pos hk.2]

theorem anchorFileHref_of_not_keep (fts : List String) (a : Anchor)
    (hk : keepAnchorAmended fts a = false) :
    anchorFileHref fts a = none := by
  unfold keepAnchorAmended at hk
  cases ha : a.href with
  | none => simp only [anchorFileHref, ha]
  | some h =>
    rw [ha] at hk
    simp only [Option.getD_some] at hk
    by_cases hemp : h = ("")
    · simp only [anchorFileHref, ha]
      rw [if_pos hemp]
    · cases hcond : (strEndsWithAny h fts || a.typeAttr == some ("zip")) with
      | true =>
        rw [hcond] at hk
        simp only [Bool.and_true] at hk
        rw [bne_eq_false_iff_eq] at hk
        exact absurd hk hemp
      | false =>
        simp only [anchorFileHref, ha]
        rw [if_neg hemp, if_neg (by rw [hcond]; simp)]

theorem extract_filterMap_eq (fts : List String) (anchors : List Anchor) :
    anchors.filterMap (anchorFileHref fts)
      = (anchors.filter (keepAnchorAmended fts)).map (fun a => a.href.getD ("")) := by
  induction anchors with
  | nil => rfl
  | cons a t ih =>
    rw [List.filterMap_cons, List.filter_cons]
    cases hk : keepAnchorAmended fts a with
    | true =>
      rw [anchorFileHref_of_keep fts a hk]
      rw [if_pos rfl, List.map_cons, ih]
    | false =>
      rw [anchorFileHref_of_not_keep fts a hk]
      rw [if_neg (by simp), ih]

theorem hrefIfTruthy_of_keep (a : Anchor)
    (hk : (a.href.getD ("") != ("")) = true) :
    hrefIfTruthy a = some (a.href.getD ("")) := by
  cases ha : a.href with
  | none => rw [ha] at hk; simp at hk
  | some h =>
    rw [ha] at hk
    simp only [Option.getD_some] at hk ⊢
    have hemp : ¬ h = ("") := by
      intro he
      rw [he] at hk
      simp at hk
    simp only [hrefIfTruthy, ha]
    rw [if_neg hemp]

theorem hrefIfTruthy_of_not_keep (a : Anchor)
    (hk : (a.href.getD ("") != ("")) = false) :
    hrefIfTruthy a = none := by
  cases ha : a.href with
  | none => simp only [hrefIfTruthy, ha]
  | some h =>
    rw [ha] at hk
    simp only [Option.getD_some] at hk
    rw [bne_eq_false_iff_eq] at hk
    simp only [hrefIfTruthy, ha]
    rw [if_pos hk]

theorem extract_truthy_eq (anchors : List Anchor) :
    anchors.filterMap hrefIfTruthy
      = (anchors.filter (fun a => a.href.getD ("") != (""))).map
          (fun a => a.href.getD ("")) := by
  induction anchors with
  | nil => rfl
  | cons a t ih =>
    rw [List.filterMap_cons, List.filter_cons]
    cases hk : (a.href.getD ("") != ("")) with
    | true =>
      rw [hrefIfTruthy_of_keep a hk]
      rw [if_pos rfl, List.map_cons, ih]
    | false =>
      rw [hrefIfTruthy_of_not_keep a hk]
      rw [if_neg (by simp), ih]

/-- C3 counterexample: an anchor with an empty href and type attribute
"zip" is kept by the claim's extraction rule (its type attribute equals
"zip") but dropped by the code's truthiness test on the href, so the
claim's "keeps exactly those anchors" is false as stated. -/
theorem C3_counterexample :
    extractHrefsClaim [(".zip")] [{ href := some (""), typeAttr := some ("zip") }]
      = [("")] ∧
    extractHrefs (some [(".zip")]) [{ href := some (""), typeAttr := some ("zip") }]
      = [] :=
  ⟨by decide, by decide⟩

/-- C3 (amended): with a non-empty suffix set, extraction keeps exactly
the anchors that have a non-empty href and whose href ends
(case-sensitively, exact suffix match) in one of the suffixes or whose
type attribute equals "zip"; with a None/empty suffix set it keeps every
anchor with a non-empty href; in both cases the result is the kept
anchors' hrefs in document order with no deduplication. -/
theorem C3_extraction (fts : List String) (anchors : List Anchor) (hne : fts ≠ []) :
    extractHrefs (some fts) anchors
      = (anchors.filter (keepAnchorAmended fts)).map (fun a => a.href.getD ("")) ∧
    extractHrefs none anchors
      = (anchors.filter (fun a => a.href.getD ("") != (""))).map
          (fun a => a.href.getD ("")) := by
  have hE : fts.isEmpty = false := by
    cases fts with
    | nil => exact absurd rfl hne
    | cons a t => rfl
  constructor
  · simp only [extractHrefs, hE, Bool.false_eq_true, if_false]
    exact extract_filterMap_eq fts anchors
  · exact extract_truthy_eq anchors

theorem C3_extraction_witness :
    ([(".zip")] : List String) ≠ [] ∧
    (extractHrefs (some [(".zip")])
        [{ href := some ("a.ZIP"), typeAttr := none },
         { href := some ("b.zip"), typeAttr := none },
         { href := some ("c.txt"), typeAttr := some ("zip") },
         { href := none, typeAttr := some ("zip") }]
      = (([{ href := some ("a.ZIP"), typeAttr := none },
           { href := some ("b.zip"), typeAttr := none },
           { href := some ("c.txt"), typeAttr := some ("zip") },
           { href := none, typeAttr := some ("zip") }] : List Anchor).filter
            (keepAnchorAmended [(".zip")])).map (fun a => a.href.getD ("")) ∧
     extractHrefs none
        [{ href := some ("a.ZIP"), typeAttr := none },
         { href := some ("b.zip"), typeAttr := none },
         { href := some ("c.txt"), typeAttr := some ("zip") },
         { href := none, typeAttr := some ("zip") }]
      = (([{ href := some ("a.ZIP"), typeAttr := none },
           { href := some ("b.zip"), typeAttr := none },
           { href := some ("c.txt"), typeAttr := some ("zip") },
           { href := none, typeAttr := some ("zip") }] : List Anchor).filter
            (fun a => a.href.getD ("") != (""))).map (fun a => a.href.getD (""))) :=
  ⟨by decide,
   C3_extraction [(".zip")]
     [{ href := some ("a.ZIP"), typeAttr := none },
      { href := some ("b.zip"), typeAttr := none },
      { href := some ("c.txt"), typeAttr := some ("zip") },
      { href := none, typeAttr := some ("zip") }] (by decide)⟩

/-- C4: the claim says a successfully created browser instance is quit
on every exit path; in the code `driver.quit()` (line 116) is only
reached on the success path, so when navigation raises after the driver
was created, the except clause (lines 118-120) logs and re-raises
without quitting: at this failing input the trace records the driver
creation but no quit event. -/
theorem C4_browser_not_released_on_nav_failure :
    envNavFail.createOk = true ∧
    (set_up_soup_dynamic envNavFail ("https://unreachable.invalid/") [("all")] 30).1
      = [DynEvent.driverCreated, DynEvent.loggedError] ∧
    DynEvent.quitCalled ∉
      (set_up_soup_dynamic envNavFail ("https://unreachable.invalid/") [("all")] 30).1 ∧
    (set_up_soup_dynamic envNavFail ("https://unreachable.invalid/") [("all")] 30).2
      = Except.error ("navigation failed") :=
  ⟨rfl, rfl, by decide, rfl⟩

/-- C5 counterexample: with the default timeout 30 an anchor matching
".zip" that first appears after 20 seconds would be found if polling
were bounded by the caller-supplied timeout (the claim's reading), but
the code's `find_element` waits a hard-coded 10 seconds per suffix
(line 144) and reports no element. -/
theorem C5_counterexample :
    findElementClaim envLate 30 [(".zip")] = some (cssSelector (".zip"), (".zip")) ∧
    find_element envLate [(".zip")] = none ∧
    DynEvent.loggedNoElement ∈ (set_up_soup_dynamic envLate ("u") [(".zip")] 30).1 :=
  ⟨by decide, by decide, by decide⟩

/-- C5 (amended): in a dynamic-mode fetch with a non-empty wait-set the
polling for each suffix is bounded by a fixed 10-second per-suffix wait
(the caller-supplied timeout value is not consulted in dynamic mode),
the suffixes are tried in the order given, and a per-suffix timeout
falls through to the next suffix: whatever the timeout argument, a
first suffix that times out at 10 seconds and a second whose element
appears within 10 seconds yield the second suffix's element. -/
theorem C5_fixed_ten_second_fallthrough (env : DriverEnv) (ft1 ft2 s : String)
    (hc : env.createOk = true) (hn : env.navRaises = false)
    (h1 : webDriverWaitUntil env 10 (cssSelector ft1) = none)
    (h2 : webDriverWaitUntil env 10 (cssSelector ft2) = some s) :
    find_element env [ft1, ft2] = some (s, ft2) ∧
    (∀ timeout url, set_up_soup_dynamic env url [ft1, ft2] timeout
      = ([DynEvent.driverCreated, DynEvent.navigated, DynEvent.loggedFound ft2,
          DynEvent.quitCalled], Except.ok env.pageSource)) := by
  have hfe : find_element env [ft1, ft2] = some (s, ft2) := by
    unfold find_element selectorPairs
    rw [if_neg (by simp)]
    show findFirst env 10 [(ft1, cssSelector ft1), (ft2, cssSelector ft2)]
      = some (s, ft2)
    simp [findFirst, h1, h2]
  refine ⟨hfe, ?_⟩
  intro timeout url
  unfold set_up_soup_dynamic
  simp [hc, hn, hfe]

theorem C5_fixed_ten_second_fallthrough_witness :
    envFall.createOk = true ∧ envFall.navRaises = false ∧
    webDriverWaitUntil envFall 10 (cssSelector (".pdf")) = none ∧
    webDriverWaitUntil envFall 10 (cssSelector (".zip")) = some (cssSelector (".zip")) ∧
    (find_element envFall [(".pdf"), (".zip")] = some (cssSelector (".zip"), (".zip")) ∧
     (∀ timeout url, set_up_soup_dynamic envFall url [(".pdf"), (".zip")] timeout
       = ([DynEvent.driverCreated, DynEvent.navigated, DynEvent.loggedFound (".zip"),
           DynEvent.quitCalled], Except.ok envFall.pageSource))) :=
  ⟨rfl, rfl, by decide, by decide,
   C5_fixed_ten_second_fallthrough envFall (".pdf") (".zip") (cssSelector (".zip"))
     rfl rfl (by decide) (by decide)⟩

/-- C6 counterexample: for the href "docs/file.zip?v=1" the claim's
destination name (final path segment with query and fragment stripped)
is "file.zip", but the code names the file `os.path.basename(href)` =
"file.zip?v=1" and writes to that path. -/
theorem C6_counterexample :
    claimDestName ("docs/file.zip?v=1") = ("file.zip") ∧
    basename ("docs/file.zip?v=1") = ("file.zip?v=1") ∧
    pathJoin ("/d") (basename ("docs/file.zip?v=1"))
      ≠ pathJoin ("/d") (claimDestName ("docs/file.zip?v=1")) ∧
    Event.wrote ("/d/file.zip?v=1") ("content")
      ∈ (processHref envAllOk ("/d") ("https://example.org/") []
          ("docs/file.zip?v=1")).2 :=
  ⟨by decide, by decide, by decide, by decide⟩

/-- C6 (amended): the destination file name equals the substring of the
raw href after its last '/' (`os.path.basename` of the href as a plain
string); query strings and fragments are not stripped and remain part of
the file name: a fresh successful download writes to exactly that
path. -/
theorem C6_dest_name_is_raw_basename (env : Env) (fp bu : String) (fs : FS)
    (href content : String)
    (hnew : (fs.lookup (pathJoin fp (basename href))).isSome = false)
    (hreq : env.request (urljoin bu href) = Except.ok content)
    (hw : env.writeOk (pathJoin fp (basename href)) = true) :
    processHref env fp bu fs href
      = ((pathJoin fp (basename href), content) :: fs,
         [Event.slept, Event.requested (urljoin bu href),
          Event.wrote (pathJoin fp (basename href)) content]) ∧
    basename href
      = String.mk ((href.data.reverse.takeWhile (fun c => c != ('/'))).reverse) := by
  constructor
  · unfold processHref tryBody
    simp [hnew, hreq, hw]
  · show String.mk (basenameChars href.data) = _
    rw [basenameChars_eq]

theorem C6_dest_name_is_raw_basename_witness :
    (([] : FS).lookup (pathJoin ("/d") (basename ("docs/file.zip?v=1")))).isSome = false ∧
    envAllOk.request (urljoin ("https://example.org/") ("docs/file.zip?v=1"))
      = Except.ok ("content") ∧
    envAllOk.writeOk (pathJoin ("/d") (basename ("docs/file.zip?v=1"))) = true ∧
    (processHref envAllOk ("/d") ("https://example.org/") [] ("docs/file.zip?v=1")
      = ((pathJoin ("/d") (basename ("docs/file.zip?v=1")), ("content")) :: [],
         [Event.slept,
          Event.requested (urljoin ("https://example.org/") ("docs/file.zip?v=1")),
          Event.wrote (pathJoin ("/d") (basename ("docs/file.zip?v=1"))) ("content")]) ∧
     basename ("docs/file.zip?v=1")
       = String.mk (((("docs/file.zip?v=1") : String).data.reverse.takeWhile
           (fun c => c != ('/'))).reverse)) :=
  ⟨by decide, rfl, by decide,
   C6_dest_name_is_raw_basename envAllOk ("/d") ("https://example.org/") []
     ("docs/file.zip?v=1") ("content") (by decide) rfl (by decide)⟩

/-- C7 counterexample: in a browser world where navigating to the
unreachable page raises (chromedriver raises a WebDriverException for
unreachable hosts), a dynamic fetch with an empty wait-set does not
return parsed HTML: the except clause re-raises, and the browser is not
even quit. -/
theorem C7_counterexample :
    (set_up_soup_dynamic envNavFail ("https://unreachable.invalid/") [] 30).2
      = Except.error ("navigation failed") ∧
    DynEvent.quitCalled ∉
      (set_up_soup_dynamic envNavFail ("https://unreachable.invalid/") [] 30).1 :=
  ⟨rfl, by decide⟩

/-- C7 (amended): a dynamic-mode fetch with an empty wait-set performs
no element wait at all and returns the parsed page source currently in
the browser, provided driver creation and navigation themselves do not
raise; when navigation raises (as it does for an unreachable page) the
exception is logged and re-raised instead. -/
theorem C7_empty_waitset_returns_html (env : DriverEnv) (url : String)
    (timeout : Nat) (hc : env.createOk = true) (hn : env.navRaises = false) :
    set_up_soup_dynamic env url [] timeout
      = ([DynEvent.driverCreated, DynEvent.navigated, DynEvent.loggedNoFileTypes,
          DynEvent.quitCalled], Except.ok env.pageSource) := by
  unfold set_up_soup_dynamic
  simp [hc, hn]

theorem C7_empty_waitset_returns_html_witness :
    envNoNav.createOk = true ∧ envNoNav.navRaises = false ∧
    set_up_soup_dynamic envNoNav ("https://example.org/") [] 30
      = ([DynEvent.driverCreated, DynEvent.navigated, DynEvent.loggedNoFileTypes,
          DynEvent.quitCalled], Except.ok envNoNav.pageSource) :=
  ⟨rfl, rfl, C7_empty_waitset_returns_html envNoNav ("https://example.org/") 30 rfl rfl⟩

/-- C9: href resolution uses standard relative-URL joining: with base
"https://example.org/data/" the relative href "file.zip" resolves to
"https://example.org/data/file.zip" and the absolute-path href
"/root.zip" to "https://example.org/root.zip", and the download loop
issues its request at exactly the resolved URL. -/
theorem C9_url_resolution :
    urljoin ("https://example.org/data/") ("file.zip")
      = ("https://example.org/data/file.zip") ∧
    urljoin ("https://example.org/data/") ("/root.zip")
      = ("https://example.org/root.zip") ∧
    Event.requested ("https://example.org/data/file.zip")
      ∈ (processHref envAllOk ("/d") ("https://example.org/data/") []
          ("file.zip")).2 ∧
    Event.requested ("https://example.org/root.zip")
      ∈ (processHref envAllOk ("/d") ("https://example.org/data/") []
          ("/root.zip")).2 :=
  ⟨by decide, by decide, by decide, by decide⟩

/-- C8: when subpages are requested, `download_files` classifies as
subpages exactly the truthy hrefs of the page's unfiltered anchor list
whose final path segment does not end in a dot followed by a 3-to-5
word-character extension (so "/page/23" is a subpage and "/report.docx"
is not), resolves each against the base URL, overwrites subpages.txt in
the destination directory with one absolute URL per line, and returns
the resolved list; without the request it returns none. -/
theorem C8_subpage_collection (env : Env) (anchors : List Anchor)
    (file_path base_url : String) (file_types : Option (List String))
    (is_subpage : Bool) (fs0 : FS) :
    (download_files env anchors file_path base_url file_types true is_subpage fs0).ret
      = some (((anchors.filterMap hrefIfTruthy).filter
          (fun h => !(endsWithDottedExt (basename h)))).map
            (fun h => urljoin base_url h)) ∧
    (download_files env anchors file_path base_url file_types true is_subpage fs0).fs.lookup
        ((if is_subpage then file_path else file_path ++ ("/data")) ++ ("/subpages.txt"))
      = some (String.join ((((anchors.filterMap hrefIfTruthy).filter
          (fun h => !(endsWithDottedExt (basename h)))).map
            (fun h => urljoin base_url h)).map (fun u => u ++ ("\n")))) ∧
    (download_files env anchors file_path base_url file_types false is_subpage fs0).ret
      = none ∧
    endsWithDottedExt (basename ("/page/23")) = false ∧
    endsWithDottedExt (basename ("/report.docx")) = true := by
  have hfilter : (anchors.filterMap hrefIfTruthy).filter
        (fun h => !(endsWithDottedExt h))
      = (anchors.filterMap hrefIfTruthy).filter
        (fun h => !(endsWithDottedExt (basename h))) := by
    apply List.filter_congr
    intro x _
    rw [endsWithDottedExt_basename]
  refine ⟨?_, ?_, rfl, by decide, by decide⟩
  · simp only [download_files, if_true]
    rw [hfilter]
  · simp only [download_files, if_true]
    rw [List.lookup_cons_self, hfilter]
